import Mathlib

/-!
Verification of the transllm format-translation layer (spec.md) against its
source. Python values are shallowly embedded as `JVal` trees, Python
exceptions as `PyErr`, fallible code as `Except PyErr`, and the in-place
list mutation performed by `merge_duplicate_messages` as an explicit store
of parts-list objects. All definitions are transcribed from the repository
sources (file and line references in the doc comments); the only
definitions written from the spec's words are marked as such.
-/

/-- Embedding of the Python/JSON values the library manipulates: `None`,
booleans, (unbounded) integers, strings, lists and dicts. Dicts are
association lists in insertion order; Python dicts cannot hold duplicate
keys, and every concrete dict written in this file has distinct keys. -/
inductive JVal where
  | null : JVal
  | bool (b : Bool) : JVal
  | int (n : Int) : JVal
  | str (s : String) : JVal
  | list (xs : List JVal) : JVal
  | dict (kvs : List (String × JVal)) : JVal

mutual
/-- Structural equality of embedded Python values (Python `==` on the
JSON-like fragment; note the `type(...)` guards in the code run first
wherever `bool == int` coercion could matter). -/
def JVal.beq : JVal → JVal → Bool
  | .null, .null => true
  | .bool a, .bool b => a == b
  | .int a, .int b => a == b
  | .str a, .str b => a == b
  | .list xs, .list ys => JVal.beqList xs ys
  | .dict xs, .dict ys => JVal.beqPairs xs ys
  | _, _ => false

/-- Elementwise equality of value lists. -/
def JVal.beqList : List JVal → List JVal → Bool
  | [], [] => true
  | x :: xs, y :: ys => JVal.beq x y && JVal.beqList xs ys
  | _, _ => false

/-- Elementwise equality of dict entry lists. -/
def JVal.beqPairs : List (String × JVal) → List (String × JVal) → Bool
  | [], [] => true
  | (k1, v1) :: xs, (k2, v2) :: ys => k1 == k2 && JVal.beq v1 v2 && JVal.beqPairs xs ys
  | _, _ => false
end

/-- Embedding of the Python exceptions that appear in the repository:
builtin `ValueError`, `TypeError`, `KeyError`, `AttributeError`, and the
taxonomy of `src/transllm/core/exceptions.py` (`ConversionError`,
`UnsupportedProviderError`, `ValidationError`). `conversionError` stores
`message`, the `.value` strings of the two providers, and `details`
(exceptions.py lines 17-31); `unsupportedProviderError` stores the
provider's `.value` and the supported list (lines 33-43);
`validationError` stores `message` and `validation_errors` (lines 62-71). -/
inductive PyErr where
  | valueError (msg : String) : PyErr
  | typeError (msg : String) : PyErr
  | keyError (msg : String) : PyErr
  | attributeError (msg : String) : PyErr
  | conversionError (msg : String) (fromProvider toProvider : Option String)
      (details : List (String × String)) : PyErr
  | unsupportedProviderError (provider : String) (supported : List String) : PyErr
  | validationError (msg : String) (validationErrors : List String) : PyErr
deriving DecidableEq

/-- Discriminator for `isinstance(e, ConversionError)`. -/
def PyErr.isConversionError : PyErr → Bool
  | .conversionError _ _ _ _ => true
  | _ => false

/-- Discriminator for `isinstance(e, ValidationError)`. -/
def PyErr.isValidationError : PyErr → Bool
  | .validationError _ _ => true
  | _ => false

/-- Rough `str(e)` of an exception: its message, used only where the code
stores `str(e)` in a details dict. -/
def PyErr.pyStr : PyErr → String
  | .valueError m => m
  | .typeError m => m
  | .keyError m => m
  | .attributeError m => m
  | .conversionError m _ _ _ => m
  | .unsupportedProviderError p _ => "Unsupported provider: " ++ p
  | .validationError m _ => m

/-- First-occurrence lookup in an association list, as Python dict
indexing (Python dicts hold each key once). -/
def jlook (kvs : List (String × JVal)) (k : String) : Option JVal :=
  match kvs with
  | [] => none
  | (k1, v) :: rest => if k1 = k then some v else jlook rest k

/-- Python dict assignment `d[k] = v`: replaces the value at an existing
key in place, otherwise appends the new key at the end. -/
def jset (kvs : List (String × JVal)) (k : String) (v : JVal) : List (String × JVal) :=
  match kvs with
  | [] => [(k, v)]
  | (k1, v1) :: rest => if k1 = k then (k1, v) :: rest else (k1, v1) :: jset rest k v

/-- Python code-point comparison of two strings (char lists), the order
used by `sorted()` on strings. -/
def charsLe : List Char → List Char → Bool
  | [], _ => true
  | _ :: _, [] => false
  | a :: as, b :: bs =>
      if a.toNat < b.toNat then true
      else if b.toNat < a.toNat then false
      else charsLe as bs

/-- String comparison for `sorted()`. -/
def pyStrLe (a b : String) : Bool := charsLe a.data b.data

/-- Insert into a list sorted by key (first component). -/
def insortBy (key : α → String) (x : α) : List α → List α
  | [] => [x]
  | y :: ys => if pyStrLe (key x) (key y) then x :: y :: ys else y :: insortBy key x ys

/-- Python `sorted(xs, key)` for a string key. Python's sort is stable,
but the lists sorted here never hold two distinct entries with equal
keys, so insertion sort produces the same list. -/
def pySortBy (key : α → String) : List α → List α
  | [] => []
  | x :: xs => insortBy key x (pySortBy key xs)

/-- Python `sorted()` on a list of strings. -/
def pySorted (l : List String) : List String := pySortBy id l

/-- JSON string escaping used by `json.dumps` for the plain ASCII strings
appearing in this development (backslash and double quote). -/
def jsonEscape (s : String) : String :=
  String.mk (s.data.flatMap fun c =>
    if c = '"' then ['\\', '"']
    else if c = '\\' then ['\\', '\\'] else [c])

mutual
/-- Embedding of `json.dumps(v, sort_keys=True)` with its default
separators: dict entries are serialized and then ordered by key, which
yields the same string as sorting the keys first. -/
def dumps : JVal → String
  | .null => "null"
  | .bool true => "true"
  | .bool false => "false"
  | .int n => toString n
  | .str s => "\"" ++ jsonEscape s ++ "\""
  | .list xs => "[" ++ String.intercalate ", " (dumpsList xs) ++ "]"
  | .dict kvs =>
      "\x7b" ++ String.intercalate ", " ((pySortBy Prod.fst (dumpsEntries kvs)).map Prod.snd) ++ "\x7d"

/-- Serialize each list element. -/
def dumpsList : List JVal → List String
  | [] => []
  | x :: xs => dumps x :: dumpsList xs

/-- Serialize each dict entry to (key, rendered entry). -/
def dumpsEntries : List (String × JVal) → List (String × String)
  | [] => []
  | (k, v) :: kvs => (k, "\"" ++ jsonEscape k ++ "\": " ++ dumps v) :: dumpsEntries kvs
end

/-- Keys of a dict. -/
def jkeys (kvs : List (String × JVal)) : List String := kvs.map Prod.fst

/-- Python `set(d1.keys()) == set(d2.keys())`. -/
def keySetEq (k1 k2 : List (String × JVal)) : Bool :=
  (jkeys k1).all (fun k => (jkeys k2).contains k) &&
    (jkeys k2).all (fun k => (jkeys k1).contains k)

/-- Python `sorted(set(d1.keys()) | set(d2.keys()))`: sorted distinct
union of the key sets. -/
def unionKeysSorted (k1 k2 : List (String × JVal)) : List String :=
  pySorted ((jkeys k1 ++ jkeys k2).eraseDups)

/-- Embedding of the zip-pair serialization in
`BaseAdapter._deep_compare` (base_adapter.py lines 227-239): when both
items are dicts, each is re-keyed on the sorted union of their keys with
`item.get(k)` (missing keys become `None`) and dumped with sorted keys;
otherwise each item is dumped directly. Returns the pair
(serialized1, serialized2). -/
def serializePair (a b : JVal) : String × String :=
  match a, b with
  | .dict d1, .dict d2 =>
      let ks := unionKeysSorted d1 d2
      (dumps (.dict (ks.map fun k => (k, (jlook d1 k).getD .null))),
       dumps (.dict (ks.map fun k => (k, (jlook d2 k).getD .null))))
  | _, _ => (dumps a, dumps b)

/-- Same constructor test, embedding Python `type(obj1) != type(obj2)`
(guarding every branch of `_deep_compare`; note `type(True) != type(1)`
in Python, matching the distinct `bool`/`int` constructors). -/
def sameJType : JVal → JVal → Bool
  | .null, .null => true
  | .bool _, .bool _ => true
  | .int _, .int _ => true
  | .str _, .str _ => true
  | .list _, .list _ => true
  | .dict _, .dict _ => true
  | _, _ => false

namespace BaseAdapter

mutual
/-- Embedding of `BaseAdapter._deep_compare` (base_adapter.py lines
207-242). Dicts compare by equal key sets and recursive comparison of the
values; lists are zipped pairwise, each pair serialized by
`serializePair`, and the two serialized lists compared after `sorted()`;
scalars compare by `==`. -/
def deepCompare (obj1 obj2 : JVal) : Bool :=
  if !sameJType obj1 obj2 then false
  else
    match obj1, obj2 with
    | .dict k1, .dict k2 =>
        if !keySetEq k1 k2 then false else deepCompareValues k1 k2
    | .list xs, .list ys =>
        if xs.length ≠ ys.length then false
        else
          let pairs := (xs.zip ys).map fun p => serializePair p.1 p.2
          pySorted (pairs.map Prod.fst) = pySorted (pairs.map Prod.snd)
    | a, b => JVal.beq a b

/-- The `all(self._deep_compare(obj1[k], obj2[k], ...) for k in
obj1.keys())` loop of `_deep_compare`: each value of the first dict is
compared with the second dict's value at the same key (present by the
key-set check; the `.getD .null` default is never used then). -/
def deepCompareValues : List (String × JVal) → List (String × JVal) → Bool
  | [], _ => true
  | (k, v) :: rest, k2 => deepCompare v ((jlook k2 k).getD .null) && deepCompareValues rest k2
end

/-- Embedding of `BaseAdapter.check_idempotency` (base_adapter.py lines
197-205): a direct call to `_deep_compare` (the `data_type` argument is
unused by the code). -/
def checkIdempotency (originalData finalData : JVal) (dataType : String) : Bool :=
  let _ := dataType
  deepCompare originalData finalData

end BaseAdapter

/-- Python truthiness of an embedded value: `None`, `False`, `0`, `""`,
`[]` and `\x7b\x7d` are falsy. -/
def pyTruthy : JVal → Bool
  | .null => false
  | .bool b => b
  | .int n => n ≠ 0
  | .str s => s ≠ ""
  | .list xs => !xs.isEmpty
  | .dict kvs => !kvs.isEmpty

/-- Substring test, for Python `needle in haystack` on strings. -/
def pySubstr (needle hay : String) : Bool :=
  hay.data.tails.any fun t => needle.data.isPrefixOf t

/-- Python `k in v` for a string `k`: key membership for dicts, element
membership for lists, substring test for strings; `None`, booleans and
integers are not iterable and raise `TypeError`. -/
def pyContains (v : JVal) (k : String) : Except PyErr Bool :=
  match v with
  | .dict kvs => .ok ((jkeys kvs).contains k)
  | .list xs => .ok (xs.any fun x => JVal.beq x (.str k))
  | .str s => .ok (pySubstr k s)
  | _ => .error (.typeError ("argument of type is not iterable"))

/-- Python `v[k]` for a string key `k`: dict lookup (raising `KeyError`
when absent); string and list indexing by a string raise `TypeError`. -/
def pyGetItem (v : JVal) (k : String) : Except PyErr JVal :=
  match v with
  | .dict kvs =>
      match jlook kvs k with
      | some x => .ok x
      | none => .error (.keyError k)
  | .str _ => .error (.typeError "string indices must be integers")
  | .list _ => .error (.typeError "list indices must be integers or slices, not str")
  | _ => .error (.typeError "object is not subscriptable")

/-- Python `len(v)`: defined for strings, lists and dicts, `TypeError`
otherwise. -/
def pyLen : JVal → Except PyErr Nat
  | .str s => .ok s.length
  | .list xs => .ok xs.length
  | .dict kvs => .ok kvs.length
  | _ => .error (.typeError "object has no len()")

/-- Python `v[0]`: first element of a list (`IndexError` impossible at
its one use site, where the length was checked), first character of a
string, `KeyError` for a dict (integer key absent), `TypeError`
otherwise. -/
def pyIndex0 : JVal → Except PyErr JVal
  | .list [] => .error (.keyError "list index out of range")
  | .list (x :: _) => .ok x
  | .str s => .ok (.str (String.mk (s.data.take 1)))
  | .dict _ => .error (.keyError "0")
  | _ => .error (.typeError "object is not subscriptable")

/-- Embedding of `is_candidate_token_count_inclusive`
(adapters/gemini/utils.py lines 161-188): `False` when
`prompt + candidates == total`, else `True` when `candidates == total`,
else `False`. -/
def is_candidate_token_count_inclusive (prompt_tokens candidates_tokens total_tokens : Int) : Bool :=
  if prompt_tokens + candidates_tokens = total_tokens then false
  else if candidates_tokens = total_tokens then true
  else false

/-- The generator `any(key in part for key in [...])` inside
`validate_gemini_request` (utils.py line 272), with Python's
left-to-right short-circuit evaluation. -/
def anyRecognisedKey (part : JVal) : List String → Except PyErr Bool
  | [] => .ok false
  | k :: ks =>
      match pyContains part k with
      | .error e => .error e
      | .ok true => .ok true
      | .ok false => anyRecognisedKey part ks

/-- The inner `for part in parts` loop of `validate_gemini_request`
(utils.py lines 271-273): every part must contain at least one of
`text`, `inline_data`, `file_data`, `function_call`. -/
def validatePartsLoop : List JVal → Except PyErr Unit
  | [] => .ok ()
  | p :: ps =>
      match anyRecognisedKey p ["text", "inline_data", "file_data", "function_call"] with
      | .error e => .error e
      | .ok b =>
          if !b then
            .error (.valueError "Each part must have at least one of: text, inline_data, file_data, function_call")
          else validatePartsLoop ps

/-- The outer `for content in contents` loop of `validate_gemini_request`
(utils.py lines 263-273). -/
def validateContentsLoop : List JVal → Except PyErr Unit
  | [] => .ok ()
  | c :: cs =>
      match pyContains c "parts" with
      | .error e => .error e
      | .ok hasParts =>
          if !hasParts then .error (.valueError "Each content must have \x27parts\x27 field")
          else
            match pyGetItem c "parts" with
            | .error e => .error e
            | .ok (.list ps) =>
                if ps.isEmpty then .error (.valueError "Parts must be a non-empty list")
                else
                  match validatePartsLoop ps with
                  | .error e => .error e
                  | .ok () => validateContentsLoop cs
            | .ok _ => .error (.valueError "Parts must be a non-empty list")

/-- Embedding of `validate_gemini_request` (adapters/gemini/utils.py
lines 245-273). -/
def validate_gemini_request (request : JVal) : Except PyErr Unit :=
  match pyContains request "contents" with
  | .error e => .error e
  | .ok hasContents =>
      if !hasContents then .error (.valueError "Gemini request must contain \x27contents\x27 field")
      else
        match pyGetItem request "contents" with
        | .error e => .error e
        | .ok (.list cs) =>
            if cs.isEmpty then .error (.valueError "Gemini \x27contents\x27 must be a non-empty list")
            else validateContentsLoop cs
        | .ok _ => .error (.valueError "Gemini \x27contents\x27 must be a non-empty list")

/-- Values looked up in a dict are structurally smaller than the entry
list, justifying recursion through `schema.get(...)` results. -/
theorem jlook_sizeOf_lt {kvs : List (String × JVal)} {k : String} {v : JVal}
    (h : jlook kvs k = some v) : sizeOf v < sizeOf kvs := by
  induction kvs with
  | nil => simp [jlook] at h
  | cons hd tl ih =>
      obtain ⟨k1, v1⟩ := hd
      by_cases hk : k1 = k
      · simp [jlook, hk] at h
        subst h
        simp only [List.cons.sizeOf_spec, Prod.mk.sizeOf_spec]
        omega
      · simp [jlook, hk] at h
        have := ih h
        simp only [List.cons.sizeOf_spec]
        omega

/-- The default items schema `{"type": "object"}` installed by the array
branch of `validate_empty_properties` (utils.py line 360). -/
def defaultItemsSchema : JVal := .dict [("type", .str "object")]

mutual
/-- Embedding of `validate_empty_properties` (adapters/gemini/utils.py
lines 324-388). Because the Python function can both raise and mutate
its argument in place (the array branch assigns
`schema["items"] = {"type": "object"}`), the embedding returns the pair
(outcome, schema value after the call); sub-schema mutations performed
before an exception aborts the traversal are kept, as in Python. -/
def validate_empty_properties (schema : JVal) : Except PyErr Unit × JVal :=
  match schema with
  | .dict kvs =>
      match jlook kvs "type" with
      | some (.str "object") =>
          -- properties = schema.get("properties", {}); if not properties: raise
          (match h : jlook kvs "properties" with
           | none => (.error (.valueError "Object schema cannot have empty properties"), .dict kvs)
           | some props =>
               if !pyTruthy props then
                 (.error (.valueError "Object schema cannot have empty properties"), .dict kvs)
               else
                 match h2 : props with
                 | .dict pkvs =>
                     let r := vepPropsLoop pkvs
                     (r.1, .dict (jset kvs "properties" (.dict r.2)))
                 | _ => (.error (.typeError "items() requires a dict"), .dict kvs))
      | some (.str "array") =>
          -- items = schema.get("items"); falsy items are replaced by the default
          (match h : jlook kvs "items" with
           | none => (.ok (), .dict (jset kvs "items" defaultItemsSchema))
           | some items =>
               if hT : !pyTruthy items then
                 (.ok (), .dict (jset kvs "items" defaultItemsSchema))
               else
                 let r := validate_empty_properties items
                 (r.1, .dict (jset kvs "items" r.2)))
      | _ =>
          if (jkeys kvs).contains "anyOf" then
            (match h : jlook kvs "anyOf" with
             | none => (.ok (), .dict kvs)
             | some anyof =>
                 match pyLen anyof with
                 | .error e => (.error e, .dict kvs)
                 | .ok n =>
                     if n = 0 then (.error (.valueError "anyOf cannot be empty"), .dict kvs)
                     else
                       let onlyNullCheck : Except PyErr Unit :=
                         if n = 1 then
                           match pyIndex0 anyof with
                           | .error e => .error e
                           | .ok (.dict ikvs) =>
                               match jlook ikvs "type" with
                               | some (.str "null") => .error (.valueError "anyOf cannot contain only null type")
                               | _ => .ok ()
                           | .ok _ => .ok ()
                         else .ok ()
                       match onlyNullCheck with
                       | .error e => (.error e, .dict kvs)
                       | .ok () =>
                           match h2 : anyof with
                           | .list xs =>
                               let r := vepItemsLoop xs
                               (r.1, .dict (jset kvs "anyOf" (.list r.2)))
                           | _ => (.ok (), .dict kvs))
          else if (jkeys kvs).contains "allOf" then
            (match h : jlook kvs "allOf" with
             | none => (.ok (), .dict kvs)
             | some allof =>
                 if !pyTruthy allof then (.error (.valueError "allOf cannot be empty"), .dict kvs)
                 else
                   match h2 : allof with
                   | .list xs =>
                       let r := vepItemsLoop xs
                       (r.1, .dict (jset kvs "allOf" (.list r.2)))
                   | .str _ => (.ok (), .dict kvs)
                   | .dict _ => (.ok (), .dict kvs)
                   | _ => (.error (.typeError "object is not iterable"), .dict kvs))
          else (.ok (), .dict kvs)
  | _ => (.ok (), schema)
termination_by sizeOf schema
decreasing_by
  · have hv := jlook_sizeOf_lt h
    subst h2
    simp only [JVal.dict.sizeOf_spec] at hv ⊢
    omega
  · have hv := jlook_sizeOf_lt h
    simp only [JVal.dict.sizeOf_spec] at hv ⊢
    omega
  · have hv := jlook_sizeOf_lt h
    subst h2
    simp only [JVal.dict.sizeOf_spec, JVal.list.sizeOf_spec] at hv ⊢
    omega
  · have hv := jlook_sizeOf_lt h
    subst h2
    simp only [JVal.dict.sizeOf_spec, JVal.list.sizeOf_spec] at hv ⊢
    omega

/-- The `for prop_name, prop_schema in properties.items()` loop of the
object branch (utils.py lines 344-354): falsy sub-schema and empty
`required` list checks, then recursive validation; an exception aborts
the loop, keeping mutations already made. -/
def vepPropsLoop : List (String × JVal) → Except PyErr Unit × List (String × JVal)
  | [] => (.ok (), [])
  | (name, ps) :: rest =>
      if !pyTruthy ps then
        (.error (.valueError ("Property \x27" ++ name ++ "\x27 has empty schema")), (name, ps) :: rest)
      else
        match pyContains ps "required" with
        | .error e => (.error e, (name, ps) :: rest)
        | .ok hasReq =>
            let requiredCheck : Except PyErr Unit :=
              if hasReq then
                match pyGetItem ps "required" with
                | .error e => .error e
                | .ok (.list rs) =>
                    if rs.isEmpty then
                      .error (.valueError ("Property \x27" ++ name ++ "\x27 has empty required list"))
                    else .ok ()
                | .ok _ => .ok ()
              else .ok ()
            match requiredCheck with
            | .error e => (.error e, (name, ps) :: rest)
            | .ok () =>
                let r := validate_empty_properties ps
                match r.1 with
                | .error e => (.error e, (name, r.2) :: rest)
                | .ok () =>
                    let rr := vepPropsLoop rest
                    (rr.1, (name, r.2) :: rr.2)
termination_by pkvs => sizeOf pkvs
decreasing_by
  · simp only [List.cons.sizeOf_spec, Prod.mk.sizeOf_spec]
    omega
  · simp only [List.cons.sizeOf_spec, Prod.mk.sizeOf_spec]
    omega

/-- The `for item in ...` loops of the anyOf/allOf branches (utils.py
lines 377-378 and 386-387) over a list value. -/
def vepItemsLoop : List JVal → Except PyErr Unit × List JVal
  | [] => (.ok (), [])
  | x :: xs =>
      let r := validate_empty_properties x
      match r.1 with
      | .error e => (.error e, r.2 :: xs)
      | .ok () =>
          let rr := vepItemsLoop xs
          (rr.1, r.2 :: rr.2)
termination_by xs => sizeOf xs
decreasing_by
  · simp only [List.cons.sizeOf_spec]
    omega
  · simp only [List.cons.sizeOf_spec]
    omega
end

mutual
/-- Embedding of `detect_circular_reference` (adapters/gemini/utils.py
lines 276-321) on embedded values. Embedded values are finite trees, so
the `id()`-based visited-set test never fires (each recursive call passes
a copy of `visited` and removes the parent id on exit); what remains
observable at the value level is the depth bound: a call at
`depth > max_depth` raises `ValueError`, and otherwise the children of a
dict or list are visited at `depth + 1`. -/
def detect_circular_reference (obj : JVal) (depth maxDepth : Nat) : Except PyErr Bool :=
  if depth > maxDepth then
    .error (.valueError ("Max recursion depth (" ++ toString maxDepth ++ ") exceeded"))
  else
    match obj with
    | .dict kvs => dcrPairs kvs (depth + 1) maxDepth
    | .list xs => dcrList xs (depth + 1) maxDepth
    | _ => .ok false

/-- The `for key, value in obj.items()` loop of
`detect_circular_reference`. -/
def dcrPairs (kvs : List (String × JVal)) (depth maxDepth : Nat) : Except PyErr Bool :=
  match kvs with
  | [] => .ok false
  | (_, v) :: rest => do
      let b ← detect_circular_reference v depth maxDepth
      if b then pure true else dcrPairs rest depth maxDepth

/-- The `for item in obj` loop of `detect_circular_reference`. -/
def dcrList (xs : List JVal) (depth maxDepth : Nat) : Except PyErr Bool :=
  match xs with
  | [] => .ok false
  | x :: rest => do
      let b ← detect_circular_reference x depth maxDepth
      if b then pure true else dcrList rest depth maxDepth
end

/-- Heap of Python list objects holding message `parts`, indexed by
position. `merge_duplicate_messages` aliases and extends these lists in
place (`current_parts = current["parts"]; current_parts.extend(...)`),
so the embedding threads this store explicitly. -/
abbrev Store : Type := List (List JVal)

/-- Read the list object at an index (missing indices read as `[]`;
all indices used are in range). -/
def storeGet : Store → Nat → List JVal
  | [], _ => []
  | x :: _, 0 => x
  | _ :: rest, n + 1 => storeGet rest n

/-- Write the list object at an index (out-of-range writes are
dropped; all indices used are in range). -/
def storeSet : Store → Nat → List JVal → Store
  | [], _, _ => []
  | _ :: rest, 0, v => v :: rest
  | x :: rest, n + 1, v => x :: storeSet rest n v

/-- Python `lst.extend(xs)` on the list object at an index. -/
def storeExtend (σ : Store) (r : Nat) (xs : List JVal) : Store :=
  storeSet σ r (storeGet σ r ++ xs)

/-- One message as `merge_duplicate_messages` sees it, in the domain of
claims C7/C8 where every message carries a list-valued `parts`: `role`
is `msg.get("role")`, `partsRef` the store index of its parts list
object, `extra` its remaining fields. -/
structure GMsg where
  role : Option String
  partsRef : Nat
  extra : List (String × JVal)

/-- One output message of the merge: `parts` points into the store when
the merged run's parts list was non-empty at save time, and is absent
otherwise (`if current_parts and "parts" not in current`, utils.py
lines 223 and 236). -/
structure OutMsg where
  role : Option String
  partsRef : Option Nat
  extra : List (String × JVal)

/-- A message as a plain value: used to build the initial store and to
state value-level results. -/
structure MsgV where
  role : Option String
  parts : List JVal
  extra : List (String × JVal)

/-- An output message as a plain value. -/
structure OutMsgV where
  role : Option String
  parts : Option (List JVal)
  extra : List (String × JVal)

/-- Saving `current`: re-attach the (aliased) parts list object when it
is non-empty at this moment (utils.py lines 222-227 and 235-240). -/
def mkOut (σ : Store) (role : Option String) (extra : List (String × JVal)) (ref : Nat) : OutMsg :=
  if (storeGet σ ref).isEmpty then ⟨role, none, extra⟩ else ⟨role, some ref, extra⟩

/-- The `for msg in messages[1:]` loop of `merge_duplicate_messages`
(adapters/gemini/utils.py lines 216-240, final save included).
`current_parts` is the (aliased) list object at `curRef`: a same-role
message extends it in place with that message's parts; a role change
saves `current` and restarts from the new message. -/
def mergeLoop (σ : Store) (curRole : Option String) (curExtra : List (String × JVal))
    (curRef : Nat) : List GMsg → List OutMsg → Store × List OutMsg
  | [], merged => (σ, merged ++ [mkOut σ curRole curExtra curRef])
  | m :: ms, merged =>
      if m.role = curRole then
        mergeLoop (storeExtend σ curRef (storeGet σ m.partsRef)) curRole curExtra curRef ms merged
      else
        mergeLoop σ m.role m.extra m.partsRef ms (merged ++ [mkOut σ curRole curExtra curRef])

/-- Embedding of `merge_duplicate_messages` (adapters/gemini/utils.py
lines 191-242) over an explicit store of parts-list objects, restricted
to the claims' domain (every message has a list-valued `parts`, so the
`current_parts` extraction of lines 211-214 and 231-233 always fires). -/
def merge_duplicate_messages (σ : Store) : List GMsg → Store × List OutMsg
  | [] => (σ, [])
  | m :: ms => mergeLoop σ m.role m.extra m.partsRef ms []

/-- Build the initial store from value-level messages: each message's
parts list is its own object (messages decoded from JSON share no
structure). -/
def initStore (ms : List MsgV) : Store := ms.map (·.parts)

/-- Build the message records whose `partsRef` indices point at
`initStore`'s objects, starting at index `i`. -/
def initMsgs : List MsgV → Nat → List GMsg
  | [], _ => []
  | m :: rest, i => ⟨m.role, i, m.extra⟩ :: initMsgs rest (i + 1)

/-- Dereference an output message against the final store. -/
def derefOut (σ : Store) (m : OutMsg) : OutMsgV :=
  ⟨m.role, m.partsRef.map (storeGet σ), m.extra⟩

/-- Value-level result of `merge_duplicate_messages`: run the store
semantics from a fresh store and read the output messages back. -/
def merge_duplicate_messagesV (ms : List MsgV) : List OutMsgV :=
  let r := merge_duplicate_messages (initStore ms) (initMsgs ms 0)
  r.2.map (derefOut r.1)

/-- The input messages' parts lists after the call (the store the run
leaves behind), for the mutation claim C8. -/
def mergeFinalStore (ms : List MsgV) : Store :=
  (merge_duplicate_messages (initStore ms) (initMsgs ms 0)).1

/-- Modelled from the spec: the reference merge the claim describes
("each output message replaces a maximal run of consecutive same-role
input messages, carrying that run's parts concatenated in input order
and the other fields of the run's first message"), written from the
spec's words for comparison with the source embedding. -/
def mergeSpecLoop (curRole : Option String) (curParts : List JVal)
    (curExtra : List (String × JVal)) : List MsgV → List OutMsgV
  | [] => [⟨curRole, some curParts, curExtra⟩]
  | m :: ms =>
      if m.role = curRole then mergeSpecLoop curRole (curParts ++ m.parts) curExtra ms
      else ⟨curRole, some curParts, curExtra⟩ :: mergeSpecLoop m.role m.parts m.extra ms

/-- Modelled from the spec: entry point of the reference merge. -/
def mergeSpec : List MsgV → List OutMsgV
  | [] => []
  | m :: ms => mergeSpecLoop m.role m.parts m.extra ms

/-- Modelled from the spec: the `Provider` enum of the IR schema
(spec section 3.1; `core/schema.py` is not among the provided sources).
Its `.value` strings are the lowercase provider names the registry and
converters key on. -/
inductive Provider where
  | openai : Provider
  | anthropic : Provider
  | gemini : Provider
deriving DecidableEq

/-- The `.value` string of a `Provider` member. -/
def Provider.value : Provider → String
  | .openai => "openai"
  | .anthropic => "anthropic"
  | .gemini => "gemini"

/-- Python `str.lower()` on ASCII strings (the provider names used as
registry keys are ASCII). -/
def pyLower (s : String) : String :=
  String.mk (s.data.map fun c =>
    if 65 ≤ c.toNat ∧ c.toNat ≤ 90 then Char.ofNat (c.toNat + 32) else c)

/-- An adapter class as the registry stores it: identified by name, with
the result of the `issubclass(adapter_class, BaseAdapter)` test
(provider_registry.py line 25). -/
structure AdapterClass where
  clsName : String
  subclassOfBaseAdapter : Bool
deriving DecidableEq

/-- An adapter instance `adapter_class(provider_name)` as returned by
`ProviderRegistry.get_adapter` (provider_registry.py line 55). -/
structure AdapterInstance where
  cls : AdapterClass
  providerName : Provider
deriving DecidableEq

/-- The `ProviderRegistry._adapters` mapping: provider key to adapter
class. -/
abbrev Registry : Type := List (String × AdapterClass)

/-- Dict lookup in the registry. -/
def regLook : Registry → String → Option AdapterClass
  | [], _ => none
  | (k1, c) :: rest, k => if k1 = k then some c else regLook rest k

/-- Dict assignment in the registry: replace at an existing key, append
otherwise. -/
def regSet : Registry → String → AdapterClass → Registry
  | [], k, c => [(k, c)]
  | (k1, c1) :: rest, k, c => if k1 = k then (k1, c) :: rest else (k1, c1) :: regSet rest k c

namespace ProviderRegistry

/-- Embedding of `ProviderRegistry.register` (provider_registry.py lines
17-31): `TypeError` unless the class subclasses `BaseAdapter`, else the
class is stored under the lowercased `.value` of the provider. -/
def register (reg : Registry) (provider_name : Provider) (adapter_class : AdapterClass) :
    Except PyErr Registry :=
  if !adapter_class.subclassOfBaseAdapter then
    .error (.typeError "Adapter must be a subclass of BaseAdapter")
  else .ok (regSet reg (pyLower provider_name.value) adapter_class)

/-- Embedding of `ProviderRegistry.list_supported_providers`
(provider_registry.py lines 57-64): the stored keys. -/
def list_supported_providers (reg : Registry) : List String := reg.map Prod.fst

/-- Embedding of `ProviderRegistry.get_adapter` (provider_registry.py
lines 33-55): `UnsupportedProviderError(provider_name, supported)` when
the lowercased key is absent, otherwise `adapter_class(provider_name)`. -/
def get_adapter (reg : Registry) (provider_name : Provider) : Except PyErr AdapterInstance :=
  match regLook reg (pyLower provider_name.value) with
  | none => .error (.unsupportedProviderError provider_name.value (list_supported_providers reg))
  | some adapter_class => .ok ⟨adapter_class, provider_name⟩

/-- Embedding of `ProviderRegistry.is_supported` (provider_registry.py
lines 66-76). -/
def is_supported (reg : Registry) (provider_name : Provider) : Bool :=
  (regLook reg (pyLower provider_name.value)).isSome

end ProviderRegistry

/-- Whether an `Except` result is a normal return. -/
def exceptIsOk : Except PyErr α → Bool
  | .ok _ => true
  | .error _ => false

/-- Modelled from the spec: the unified `StreamEvent` record (spec
section 3.2; `core/schema.py` is not among the provided sources), with
the payload fields the default `_to_unified_stream_event_impl` extracts.
`timestamp` (Python float seconds) is embedded as a rational. -/
structure StreamEvent where
  type : JVal
  sequence_id : Nat
  timestamp : ℚ
  content_delta : Option JVal
  tool_call_delta : Option JVal
  tool_call : Option JVal
  finish_reason : Option JVal
  content_index : Option JVal
  error : Option JVal
  metadata : Option JVal

/-- Streaming state of a `BaseAdapter` (base_adapter.py lines 34-36):
`_stream_sequence_id`, `_stream_start_time`, plus model bookkeeping
`clk`, the index of the next `time.time()` reading consumed by this
adapter (readings are supplied by a `clock` function). -/
structure AdapterStreamState where
  streamSequenceId : Nat
  streamStartTime : Option ℚ
  clk : Nat

/-- Embedding of `BaseAdapter.reset_stream_state` (base_adapter.py lines
83-90): zero the sequence counter and clear the start time. -/
def BaseAdapter.reset_stream_state (s : AdapterStreamState) : AdapterStreamState :=
  { s with streamSequenceId := 0, streamStartTime := none }

/-- Embedding of the default `BaseAdapter._to_unified_stream_event_impl`
(base_adapter.py lines 121-152): field extraction from the event dict. -/
def BaseAdapter.toUnifiedStreamEventImpl (data : List (String × JVal))
    (sequenceId : Nat) (timestamp : ℚ) : StreamEvent :=
  { type := (jlook data "type").getD (.str "content_delta")
    sequence_id := sequenceId
    timestamp := timestamp
    content_delta := jlook data "content_delta"
    tool_call_delta := jlook data "tool_call_delta"
    tool_call := jlook data "tool_call"
    finish_reason := jlook data "finish_reason"
    content_index := jlook data "content_index"
    error := jlook data "error"
    metadata := jlook data "metadata" }

/-- Embedding of `BaseAdapter.to_unified_stream_event` (base_adapter.py
lines 92-119). The call takes the current sequence id and increments the
counter; on the first event it reads `time.time()` once to set
`_stream_start_time` and once more for the timestamp, on later events it
reads once; the timestamp is the reading minus the start time. -/
def BaseAdapter.to_unified_stream_event (clock : Nat → ℚ) (s : AdapterStreamState)
    (data : List (String × JVal)) : StreamEvent × AdapterStreamState :=
  let sequenceId := s.streamSequenceId
  let s1 : AdapterStreamState := { s with streamSequenceId := s.streamSequenceId + 1 }
  match s1.streamStartTime with
  | none =>
      let t0 := clock s1.clk
      (BaseAdapter.toUnifiedStreamEventImpl data sequenceId (clock (s1.clk + 1) - t0),
        { s1 with streamStartTime := some t0, clk := s1.clk + 2 })
  | some t0 =>
      (BaseAdapter.toUnifiedStreamEventImpl data sequenceId (clock s1.clk - t0),
        { s1 with clk := s1.clk + 1 })

/-- A sequence of `to_unified_stream_event` calls on one adapter,
returning the emitted events in order and the final state. -/
def runStream (clock : Nat → ℚ) (s : AdapterStreamState) :
    List (List (String × JVal)) → List StreamEvent × AdapterStreamState
  | [] => ([], s)
  | d :: ds =>
      let r := BaseAdapter.to_unified_stream_event clock s d
      let rest := runStream clock r.2 ds
      (r.1 :: rest.1, rest.2)

/-- A clock whose successive `time.time()` readings never decrease (the
wall-clock assumption under which the timestamp claims are stated). -/
def MonoClock (clock : Nat → ℚ) : Prop := ∀ i j, i ≤ j → clock i ≤ clock j

mutual
/-- Python `repr` of an embedded value, as `str` renders it inside
containers: `None`/`True`/`False`, decimal integers, single-quoted
strings, bracketed lists, braced dicts in insertion order. -/
def pyRepr : JVal → String
  | .null => "None"
  | .bool true => "True"
  | .bool false => "False"
  | .int n => toString n
  | .str s => "\x27" ++ s ++ "\x27"
  | .list xs => "[" ++ String.intercalate ", " (pyReprList xs) ++ "]"
  | .dict kvs => "\x7b" ++ String.intercalate ", " (pyReprPairs kvs) ++ "\x7d"

/-- Render list elements. -/
def pyReprList : List JVal → List String
  | [] => []
  | x :: xs => pyRepr x :: pyReprList xs

/-- Render dict entries. -/
def pyReprPairs : List (String × JVal) → List String
  | [] => []
  | (k, v) :: kvs => ("\x27" ++ k ++ "\x27: " ++ pyRepr v) :: pyReprPairs kvs
end

/-- Python `str(v)`: the raw string for strings, `repr` rendering
otherwise. -/
def pyStrOf : JVal → String
  | .str s => s
  | v => pyRepr v

mutual
/-- Embedding of `StreamConverter._deep_compare` (stream_converter.py
lines 270-314). Embedded values are plain JSON values, so neither
`hasattr(obj, 'value')` enum test fires; dicts compare by equal key sets
and recursive value comparison, lists by `sorted(str(item))`, scalars by
`==`. -/
def scDeepCompare (obj1 obj2 : JVal) : Bool :=
  if !sameJType obj1 obj2 then false
  else
    match obj1, obj2 with
    | .dict k1, .dict k2 =>
        if !keySetEq k1 k2 then false else scDeepCompareValues k1 k2
    | .list xs, .list ys =>
        if xs.length ≠ ys.length then false
        else pySorted (xs.map pyStrOf) = pySorted (ys.map pyStrOf)
    | a, b => JVal.beq a b

/-- The per-key comparison loop of `StreamConverter._deep_compare`. -/
def scDeepCompareValues : List (String × JVal) → List (String × JVal) → Bool
  | [], _ => true
  | (k, v) :: rest, k2 => scDeepCompare v ((jlook k2 k).getD .null) && scDeepCompareValues rest k2
end

/-- Embedding of `ConversionError.__init__` (core/exceptions.py lines
17-31). The body runs `self.from_provider = from_provider.value` and
then `self.to_provider = to_provider.value` unconditionally, so passing
`None` for either provider makes construction itself raise
`AttributeError` instead of producing the exception object. -/
def ConversionError.init (message : String) (from_provider to_provider : Option Provider)
    (details : List (String × String)) : Except PyErr PyErr :=
  match from_provider with
  | none => .error (.attributeError "\x27NoneType\x27 object has no attribute \x27value\x27")
  | some f =>
      match to_provider with
      | none => .error (.attributeError "\x27NoneType\x27 object has no attribute \x27value\x27")
      | some t => .ok (.conversionError message (some f.value) (some t.value) details)

namespace StreamConverter

/-- Embedding of `StreamConverter.to_unified_event` (stream_converter.py
lines 69-113), parameterized by the behaviour `impl` of the cached
adapter's `to_unified_stream_event` (the claims concern a provider whose
adapter is registered; an unregistered provider raises
`UnsupportedProviderError` before the wrapping `try`). A
non-`ConversionError` exception from the adapter is re-raised via
`ConversionError(message, from_provider, None, {"original_error":
str(e)})`, whose construction is `ConversionError.init`. -/
def to_unified_event {α : Type} (impl : JVal → Except PyErr α) (from_provider : Provider)
    (data : JVal) : Except PyErr α :=
  match impl data with
  | .ok ev => .ok ev
  | .error e =>
      if e.isConversionError then .error e
      else
        match ConversionError.init
            ("Failed to convert stream event from " ++ from_provider.value ++ " to unified format")
            (some from_provider) none [("original_error", e.pyStr)] with
        | .ok ce => .error ce
        | .error e2 => .error e2

/-- Embedding of `StreamConverter.from_unified_event`
(stream_converter.py lines 115-156), parameterized by the cached
adapter's `from_unified_stream_event`; the wrap passes `None` as the
`from_provider` argument of `ConversionError`. -/
def from_unified_event {α : Type} (impl : α → Except PyErr JVal) (to_provider : Provider)
    (unified_event : α) : Except PyErr JVal :=
  match impl unified_event with
  | .ok ev => .ok ev
  | .error e =>
      if e.isConversionError then .error e
      else
        match ConversionError.init
            ("Failed to convert stream event from unified format to " ++ to_provider.value)
            none (some to_provider) [("original_error", e.pyStr)] with
        | .ok ce => .error ce
        | .error e2 => .error e2

/-- Embedding of `StreamConverter.check_idempotency` (stream_converter.py
lines 240-268): round-trip through the two conversions inside
`try ... except Exception: return False`, comparing with
`StreamConverter._deep_compare` on success. -/
def check_idempotency {α : Type} (implTo : JVal → Except PyErr α)
    (implFrom : α → Except PyErr JVal) (provider : Provider) (data : JVal) : Bool :=
  match to_unified_event implTo provider data with
  | .error _ => false
  | .ok ev =>
      match from_unified_event implFrom provider ev with
      | .error _ => false
      | .ok converted_back => scDeepCompare data converted_back

end StreamConverter

/-- A nested list of the given depth, for exercising the recursion
bound of `detect_circular_reference`. -/
def nestList : Nat → JVal
  | 0 => .int 1
  | n + 1 => .list [nestList n]

/-- Modelled from the spec (as amended by claim C6's counterexample):
a part is recognised when it is a dict carrying at least one of `text`,
`inline_data`, `file_data`, `function_call` — the list in
validate_gemini_request line 272, which does not include
`function_response`. -/
def wellFormedPart : JVal → Bool
  | .dict pkvs => ["text", "inline_data", "file_data", "function_call"].any
      fun k => (jkeys pkvs).contains k
  | _ => false

/-- Modelled from the spec: a content dict with a non-empty list-valued
`parts` whose parts are all recognised. -/
def wellFormedContent : JVal → Bool
  | .dict ckvs =>
      match jlook ckvs "parts" with
      | some (.list ps) => !ps.isEmpty && ps.all wellFormedPart
      | _ => false
  | _ => false

/-- Modelled from the spec: a request dict whose `contents` is a
non-empty list of well-formed contents. -/
def wellFormedGeminiRequest : JVal → Bool
  | .dict kvs =>
      match jlook kvs "contents" with
      | some (.list cs) => !cs.isEmpty && cs.all wellFormedContent
      | _ => false
  | _ => false

/-- Correspondence between the message records a run of `mergeLoop` still
has to process and their plain values: matching role and extra fields,
and a `partsRef` that points (in bounds) at the value's parts list. -/
def msgsMatch (σ : Store) : List GMsg → List MsgV → Prop :=
  List.Forall₂ fun g v =>
    g.role = v.role ∧ g.extra = v.extra ∧ storeGet σ g.partsRef = v.parts ∧ g.partsRef < σ.length

theorem contains_false_of_jlook_none {kvs : List (String × JVal)} {k : String}
    (h : jlook kvs k = none) : (jkeys kvs).contains k = false := by
  induction kvs with
  | nil => simp [jkeys]
  | cons hd tl ih =>
      obtain ⟨k1, v1⟩ := hd
      by_cases hk : k1 = k
      · rw [jlook, if_pos hk] at h
        exact absurd h (by simp)
      · rw [jlook, if_neg hk] at h
        simp [jkeys] at ih ⊢
        exact ⟨fun he => hk he.symm, ih h⟩

theorem contains_true_of_jlook_some {kvs : List (String × JVal)} {k : String} {v : JVal}
    (h : jlook kvs k = some v) : (jkeys kvs).contains k = true := by
  induction kvs with
  | nil => simp [jlook] at h
  | cons hd tl ih =>
      obtain ⟨k1, v1⟩ := hd
      by_cases hk : k1 = k
      · simp [jkeys, hk]
      · rw [jlook, if_neg hk] at h
        simp [jkeys] at ih ⊢
        exact Or.inr (ih h)

theorem anyRecognisedKey_of_any_contains :
    ∀ (ks : List String) (pkvs : List (String × JVal)),
      (ks.any fun k => (jkeys pkvs).contains k) = true →
      anyRecognisedKey (.dict pkvs) ks = .ok true := by
  intro ks
  induction ks with
  | nil => intro pkvs h; simp at h
  | cons k rest ih =>
      intro pkvs h
      rw [List.any_cons] at h
      rw [anyRecognisedKey]
      rw [show pyContains (.dict pkvs) k = .ok ((jkeys pkvs).contains k) from rfl]
      cases hc : (jkeys pkvs).contains k with
      | true => rfl
      | false =>
          rw [hc] at h
          simp only [Bool.false_or] at h
          exact ih pkvs h

theorem validatePartsLoop_ok :
    ∀ ps : List JVal, ps.all wellFormedPart = true → validatePartsLoop ps = .ok () := by
  intro ps
  induction ps with
  | nil => intro _; rfl
  | cons p rest ih =>
      intro h
      rw [List.all_cons, Bool.and_eq_true] at h
      obtain ⟨hp, hrest⟩ := h
      cases p with
      | dict pkvs =>
          rw [wellFormedPart] at hp
          rw [validatePartsLoop, anyRecognisedKey_of_any_contains _ pkvs hp]
          simpa using ih hrest
      | null => simp [wellFormedPart] at hp
      | bool b => simp [wellFormedPart] at hp
      | int n => simp [wellFormedPart] at hp
      | str s => simp [wellFormedPart] at hp
      | list xs => simp [wellFormedPart] at hp

theorem validateContentsLoop_ok :
    ∀ cs : List JVal, cs.all wellFormedContent = true → validateContentsLoop cs = .ok () := by
  intro cs
  induction cs with
  | nil => intro _; rfl
  | cons c rest ih =>
      intro h
      rw [List.all_cons, Bool.and_eq_true] at h
      obtain ⟨hc, hrest⟩ := h
      cases c with
      | dict ckvs =>
          rw [wellFormedContent] at hc
          cases hp : jlook ckvs "parts" with
          | none => rw [hp] at hc; exact absurd hc (by simp)
          | some parts =>
              rw [hp] at hc
              cases parts with
              | list ps =>
                  rw [Bool.and_eq_true] at hc
                  obtain ⟨hne, hall⟩ := hc
                  rw [validateContentsLoop]
                  rw [show pyContains (.dict ckvs) "parts" = .ok ((jkeys ckvs).contains "parts") from rfl]
                  rw [contains_true_of_jlook_some hp]
                  rw [show pyGetItem (.dict ckvs) "parts" =
                    (match jlook ckvs "parts" with
                     | some x => Except.ok x
                     | none => Except.error (.keyError "parts")) from rfl, hp]
                  simp only [Bool.not_eq_true'] at hne
                  simp [hne, validatePartsLoop_ok ps hall, ih hrest]
              | null => simp at hc
              | bool b => simp at hc
              | int n => simp at hc
              | str s => simp at hc
              | dict d => simp at hc
      | null => simp [wellFormedContent] at hc
      | bool b => simp [wellFormedContent] at hc
      | int n => simp [wellFormedContent] at hc
      | str s => simp [wellFormedContent] at hc
      | list xs => simp [wellFormedContent] at hc

/-- C6 (amended): `validate_gemini_request` accepts every request whose
`contents` is a non-empty list in which each content is a dict with a
non-empty list-valued `parts` and each part is a dict carrying at least
one of `text`, `inline_data`, `file_data`, `function_call` (the
recognised kinds; `function_response` is not among them). -/
theorem validate_gemini_request_accepts_wellformed :
    ∀ r : JVal, wellFormedGeminiRequest r = true → validate_gemini_request r = .ok () := by
  intro r h
  cases r with
  | dict kvs =>
      rw [wellFormedGeminiRequest] at h
      cases hC : jlook kvs "contents" with
      | none => rw [hC] at h; exact absurd h (by simp)
      | some contents =>
          rw [hC] at h
          cases contents with
          | list cs =>
              rw [Bool.and_eq_true] at h
              obtain ⟨hne, hall⟩ := h
              rw [validate_gemini_request]
              rw [show pyContains (.dict kvs) "contents" = .ok ((jkeys kvs).contains "contents") from rfl]
              rw [contains_true_of_jlook_some hC]
              rw [show pyGetItem (.dict kvs) "contents" =
                (match jlook kvs "contents" with
                 | some x => Except.ok x
                 | none => Except.error (.keyError "contents")) from rfl, hC]
              simp only [Bool.not_eq_true'] at hne
              simp [hne, validateContentsLoop_ok cs hall]
          | null => simp at h
          | bool b => simp at h
          | int n => simp at h
          | str s => simp at h
          | dict d => simp at h
  | null => simp [wellFormedGeminiRequest] at h
  | bool b => simp [wellFormedGeminiRequest] at h
  | int n => simp [wellFormedGeminiRequest] at h
  | str s => simp [wellFormedGeminiRequest] at h
  | list xs => simp [wellFormedGeminiRequest] at h

/-- C6 (witness): a request whose single part is a `function_call`
passes validation. -/
theorem validate_gemini_request_accepts_wellformed_witness :
    wellFormedGeminiRequest (.dict [("contents", .list [.dict [("role", .str "user"),
      ("parts", .list [.dict [("function_call", .dict [("name", .str "get_weather")])]])]])]) = true ∧
    validate_gemini_request (.dict [("contents", .list [.dict [("role", .str "user"),
      ("parts", .list [.dict [("function_call", .dict [("name", .str "get_weather")])]])]])]) = .ok () :=
  ⟨rfl, validate_gemini_request_accepts_wellformed _ rfl⟩

/-- C6 (counterexample): a part consisting solely of a
`function_response` is rejected by `validate_gemini_request` with a
`ValueError`, contrary to the claim that it passes validation. -/
theorem validate_gemini_request_rejects_function_response :
    validate_gemini_request (.dict [("contents", .list [.dict [("role", .str "function"),
      ("parts", .list [.dict [("function_response", .dict [("name", .str "get_weather")])]])]])]) =
    .error (.valueError "Each part must have at least one of: text, inline_data, file_data, function_call") :=
  rfl

/-- C2: `is_candidate_token_count_inclusive` returns `False` when
`prompt + candidates == total`, `True` when that fails and
`candidates == total`, and `False` in every other case, for all
non-negative integer inputs. -/
theorem is_candidate_token_count_inclusive_cases
    (prompt_tokens candidates_tokens total_tokens : Int)
    (hp : 0 ≤ prompt_tokens) (hc : 0 ≤ candidates_tokens) (ht : 0 ≤ total_tokens) :
    (prompt_tokens + candidates_tokens = total_tokens →
      is_candidate_token_count_inclusive prompt_tokens candidates_tokens total_tokens = false) ∧
    (prompt_tokens + candidates_tokens ≠ total_tokens → candidates_tokens = total_tokens →
      is_candidate_token_count_inclusive prompt_tokens candidates_tokens total_tokens = true) ∧
    (prompt_tokens + candidates_tokens ≠ total_tokens → candidates_tokens ≠ total_tokens →
      is_candidate_token_count_inclusive prompt_tokens candidates_tokens total_tokens = false) := by
  refine ⟨fun h1 => ?_, fun h1 h2 => ?_, fun h1 h2 => ?_⟩
  · rw [is_candidate_token_count_inclusive, if_pos h1]
  · rw [is_candidate_token_count_inclusive, if_neg h1, if_pos h2]
  · rw [is_candidate_token_count_inclusive, if_neg h1, if_neg h2]

/-- C2 (witness): the three branches at concrete token counts. -/
theorem is_candidate_token_count_inclusive_cases_witness :
    (0 : Int) ≤ 1 ∧ (0 : Int) ≤ 5 ∧ (0 : Int) ≤ 5 ∧
    is_candidate_token_count_inclusive 2 3 5 = false ∧
    is_candidate_token_count_inclusive 1 5 5 = true ∧
    is_candidate_token_count_inclusive 2 4 7 = false :=
  ⟨by decide, by decide, by decide,
   (is_candidate_token_count_inclusive_cases 2 3 5 (by decide) (by decide) (by decide)).1 (by decide),
   (is_candidate_token_count_inclusive_cases 1 5 5 (by decide) (by decide) (by decide)).2.1
     (by decide) (by decide),
   (is_candidate_token_count_inclusive_cases 2 4 7 (by decide) (by decide) (by decide)).2.2
     (by decide) (by decide)⟩

/-- C3 (failing-input evaluation): the second list is a rotation, hence a
permutation, of the first, yet `BaseAdapter.check_idempotency` (through
`_deep_compare`, whose inline comment promises multiset comparison of
lists) returns `False`: the zip pairs the dicts crosswise and serializes
each dict over the union of its partner's keys, so the two sorted
serialization lists differ. -/
theorem check_idempotency_rejects_permutation :
    List.Perm
      [JVal.dict [("a", .int 1)], JVal.dict [("b", .int 1)], JVal.dict [("c", .int 1)]]
      [JVal.dict [("b", .int 1)], JVal.dict [("c", .int 1)], JVal.dict [("a", .int 1)]] ∧
    BaseAdapter.checkIdempotency
      (.list [.dict [("a", .int 1)], .dict [("b", .int 1)], .dict [("c", .int 1)]])
      (.list [.dict [("b", .int 1)], .dict [("c", .int 1)], .dict [("a", .int 1)]])
      "request" = false :=
  ⟨show List.Perm
      ([JVal.dict [("a", .int 1)]] ++ [JVal.dict [("b", .int 1)], JVal.dict [("c", .int 1)]])
      ([JVal.dict [("b", .int 1)], JVal.dict [("c", .int 1)]] ++ [JVal.dict [("a", .int 1)]])
    from List.perm_append_comm, rfl⟩

/-- C4 (failing-input evaluation): when the adapter inside
`StreamConverter.to_unified_event` / `from_unified_event` raises a
non-taxonomy exception (here `KeyError`), the converter does not raise
the intended `ConversionError`: constructing it with `None` for the
non-applicable provider crashes in `ConversionError.__init__` on
`None.value`, so an `AttributeError` propagates instead. -/
theorem stream_converter_wrap_crashes :
    StreamConverter.to_unified_event
      (fun _ : JVal => (Except.error (PyErr.keyError "choices") : Except PyErr JVal))
      Provider.openai (.dict []) =
      .error (.attributeError "\x27NoneType\x27 object has no attribute \x27value\x27") ∧
    StreamConverter.from_unified_event
      (fun _ : JVal => (Except.error (PyErr.keyError "type") : Except PyErr JVal))
      Provider.anthropic (.dict []) =
      .error (.attributeError "\x27NoneType\x27 object has no attribute \x27value\x27") :=
  ⟨rfl, rfl⟩

/-- C5 (counterexample): a violating Gemini request (missing `contents`)
raises the builtin `ValueError`, which is not a `ValidationError`. -/
theorem validate_gemini_request_raises_plain_valueerror :
    validate_gemini_request (.dict []) =
      .error (.valueError "Gemini request must contain \x27contents\x27 field") ∧
    PyErr.isValidationError
      (.valueError "Gemini request must contain \x27contents\x27 field") = false :=
  ⟨rfl, rfl⟩

/-- C5 (amended): on each documented validation violation — missing or
empty `contents`, content without `parts`, empty `parts`, object schema
with empty `properties`, empty `anyOf`, empty `allOf`, recursion depth
exceeded — the Gemini validation functions raise the builtin
`ValueError` carrying a single message (not `ValidationError`). -/
theorem gemini_validation_raises_valueerror :
    (∀ kvs : List (String × JVal), jlook kvs "contents" = none →
      validate_gemini_request (.dict kvs) =
        .error (.valueError "Gemini request must contain \x27contents\x27 field")) ∧
    validate_gemini_request (.dict [("contents", .list [])]) =
      .error (.valueError "Gemini \x27contents\x27 must be a non-empty list") ∧
    validate_gemini_request (.dict [("contents", .list [.dict [("role", .str "user")]])]) =
      .error (.valueError "Each content must have \x27parts\x27 field") ∧
    validate_gemini_request (.dict [("contents", .list [.dict [("parts", .list [])]])]) =
      .error (.valueError "Parts must be a non-empty list") ∧
    (validate_empty_properties (.dict [("type", .str "object"), ("properties", .dict [])])).1 =
      .error (.valueError "Object schema cannot have empty properties") ∧
    (validate_empty_properties (.dict [("anyOf", .list [])])).1 =
      .error (.valueError "anyOf cannot be empty") ∧
    (validate_empty_properties (.dict [("allOf", .list [])])).1 =
      .error (.valueError "allOf cannot be empty") ∧
    detect_circular_reference (nestList 52) 0 50 =
      .error (.valueError "Max recursion depth (50) exceeded") := by
  refine ⟨fun kvs h => ?_, rfl, rfl, rfl, ?_, ?_, ?_, rfl⟩
  · rw [validate_gemini_request]
    rw [show pyContains (.dict kvs) "contents" = .ok ((jkeys kvs).contains "contents") from rfl]
    rw [contains_false_of_jlook_none h]
    rfl
  · simp [validate_empty_properties, jlook, pyTruthy]
  · simp [validate_empty_properties, jlook, jkeys, pyLen]
  · simp [validate_empty_properties, jlook, jkeys, pyTruthy]

/-- C5 (witness): the universally quantified conjunct at the empty
request dict. -/
theorem gemini_validation_raises_valueerror_witness :
    jlook [] "contents" = none ∧
    validate_gemini_request (.dict []) =
      .error (.valueError "Gemini request must contain \x27contents\x27 field") :=
  ⟨rfl, gemini_validation_raises_valueerror.1 [] rfl⟩

theorem regLook_regSet_self (reg : Registry) (k : String) (c : AdapterClass) :
    regLook (regSet reg k c) k = some c := by
  induction reg with
  | nil => simp [regSet, regLook]
  | cons hd tl ih =>
      obtain ⟨k1, c1⟩ := hd
      by_cases hk : k1 = k
      · simp [regSet, regLook, hk]
      · simp [regSet, regLook, hk, ih]

/-- C9: `get_adapter` raises `UnsupportedProviderError` carrying the
provider's name and the supported list exactly when the lowercased key
is unregistered; after a successful `register(p, C)` it returns an
instance of `C`; and `is_supported` agrees with `get_adapter` not
raising. -/
theorem provider_registry_get_adapter_spec
    (reg : Registry) (p : Provider) (C : AdapterClass) (reg2 : Registry) :
    (regLook reg (pyLower p.value) = none →
      ProviderRegistry.get_adapter reg p =
        .error (.unsupportedProviderError p.value (ProviderRegistry.list_supported_providers reg))) ∧
    (∀ c, regLook reg (pyLower p.value) = some c →
      ProviderRegistry.get_adapter reg p = .ok ⟨c, p⟩) ∧
    (ProviderRegistry.register reg p C = .ok reg2 →
      ProviderRegistry.get_adapter reg2 p = .ok ⟨C, p⟩) ∧
    ProviderRegistry.is_supported reg p = exceptIsOk (ProviderRegistry.get_adapter reg p) := by
  refine ⟨fun h => ?_, fun c h => ?_, fun h => ?_, ?_⟩
  · rw [ProviderRegistry.get_adapter, h]
  · rw [ProviderRegistry.get_adapter, h]
  · rw [ProviderRegistry.register] at h
    cases hsub : C.subclassOfBaseAdapter with
    | false => rw [hsub] at h; simp at h
    | true =>
        rw [hsub] at h
        simp only [Bool.not_true, Bool.false_eq_true, if_false, Except.ok.injEq] at h
        subst h
        rw [ProviderRegistry.get_adapter, regLook_regSet_self]
  · rw [ProviderRegistry.is_supported, ProviderRegistry.get_adapter]
    cases regLook reg (pyLower p.value) <;> simp [exceptIsOk]

/-- C9 (witness): registering the OpenAI adapter class in an empty
registry and fetching it back. -/
theorem provider_registry_get_adapter_spec_witness :
    regLook [] (pyLower Provider.openai.value) = none ∧
    ProviderRegistry.get_adapter [] Provider.openai =
      .error (.unsupportedProviderError "openai" []) ∧
    ProviderRegistry.register [] Provider.openai ⟨"OpenAIAdapter", true⟩ =
      .ok [("openai", ⟨"OpenAIAdapter", true⟩)] ∧
    ProviderRegistry.get_adapter [("openai", ⟨"OpenAIAdapter", true⟩)] Provider.openai =
      .ok ⟨⟨"OpenAIAdapter", true⟩, Provider.openai⟩ :=
  ⟨rfl,
   (provider_registry_get_adapter_spec [] Provider.openai ⟨"OpenAIAdapter", true⟩ []).1 rfl,
   rfl,
   (provider_registry_get_adapter_spec [] Provider.openai ⟨"OpenAIAdapter", true⟩
      [("openai", ⟨"OpenAIAdapter", true⟩)]).2.2.1 rfl⟩

/-- C10: `StreamConverter.check_idempotency` returns a boolean for every
input: `False` whenever either stage of the round-trip raises (the
`except Exception` catch-all also absorbs the `AttributeError` from the
broken `ConversionError` wrap), and the `_deep_compare` verdict when the
round-trip succeeds. -/
theorem stream_check_idempotency_spec {α : Type}
    (implTo : JVal → Except PyErr α) (implFrom : α → Except PyErr JVal)
    (p : Provider) (data : JVal) :
    (∀ e, implTo data = .error e →
      StreamConverter.check_idempotency implTo implFrom p data = false) ∧
    (∀ ev e, implTo data = .ok ev → implFrom ev = .error e →
      StreamConverter.check_idempotency implTo implFrom p data = false) ∧
    (∀ ev back, implTo data = .ok ev → implFrom ev = .ok back →
      StreamConverter.check_idempotency implTo implFrom p data = scDeepCompare data back) := by
  refine ⟨fun e h => ?_, fun ev e hok h => ?_, fun ev back hok hb => ?_⟩
  · unfold StreamConverter.check_idempotency StreamConverter.to_unified_event
    rw [h]
    cases hc : e.isConversionError <;> simp [hc, ConversionError.init]
  · unfold StreamConverter.check_idempotency StreamConverter.to_unified_event
      StreamConverter.from_unified_event
    rw [hok]
    dsimp only
    rw [h]
    cases hc : e.isConversionError <;> simp [hc, ConversionError.init]
  · unfold StreamConverter.check_idempotency StreamConverter.to_unified_event
      StreamConverter.from_unified_event
    rw [hok]
    dsimp only
    rw [hb]

/-- C10 (witness): a failing first stage yields `False`. -/
theorem stream_check_idempotency_spec_witness :
    (fun _ : JVal => (Except.error (PyErr.keyError "choices") : Except PyErr JVal)) JVal.null =
      .error (.keyError "choices") ∧
    StreamConverter.check_idempotency
      (fun _ : JVal => (Except.error (PyErr.keyError "choices") : Except PyErr JVal))
      (fun v : JVal => Except.ok v) Provider.openai JVal.null = false :=
  ⟨rfl, (stream_check_idempotency_spec _ _ Provider.openai JVal.null).1 _ rfl⟩

theorem runStream_started (clock : Nat → ℚ) :
    ∀ (ds : List (List (String × JVal))) (k i : Nat) (t0 : ℚ),
      ((runStream clock ⟨k, some t0, i⟩ ds).1.map (·.sequence_id) = List.range' k ds.length) ∧
      ((runStream clock ⟨k, some t0, i⟩ ds).1.map (·.timestamp) =
        (List.range' i ds.length).map fun j => clock j - t0) := by
  intro ds
  induction ds with
  | nil => intro k i t0; simp [runStream]
  | cons d rest ih =>
      intro k i t0
      rw [runStream]
      simp only [BaseAdapter.to_unified_stream_event, BaseAdapter.toUnifiedStreamEventImpl]
      constructor
      · rw [List.map_cons, List.length_cons, List.range'_succ, (ih (k + 1) (i + 1) t0).1]
      · rw [List.map_cons, List.length_cons, List.range'_succ, List.map_cons,
          (ih (k + 1) (i + 1) t0).2]

theorem clock_diffs_chain (clock : Nat → ℚ) (hm : MonoClock clock) (t0 : ℚ) :
    ∀ (n i : Nat), List.Chain' (· ≤ ·) ((List.range' i n).map fun j => clock j - t0) := by
  intro n
  induction n with
  | zero => intro i; simp
  | succ m ih =>
      intro i
      rw [List.range'_succ, List.map_cons]
      cases m with
      | zero => simp
      | succ m2 =>
          rw [List.range'_succ, List.map_cons]
          refine List.Chain'.cons (sub_le_sub_right (hm i (i + 1) (by omega)) t0) ?_
          have h2 := ih (i + 1)
          rw [List.range'_succ, List.map_cons] at h2
          exact h2

theorem clock_diffs_nonneg (clock : Nat → ℚ) (hm : MonoClock clock) (t0 : ℚ)
    (n i : Nat) (h : t0 ≤ clock i) :
    ∀ t ∈ (List.range' i n).map fun j => clock j - t0, 0 ≤ t := by
  intro t ht
  rw [List.mem_map] at ht
  obtain ⟨j, hj, rfl⟩ := ht
  rw [List.mem_range'_1] at hj
  have : t0 ≤ clock j := le_trans h (hm i j hj.1)
  linarith

/-- C1: starting from a fresh or reset adapter (sequence id 0, no start
time), any sequence of `to_unified_stream_event` calls emits
`sequence_id` values `0, 1, 2, ...` in order, and timestamps that are
non-negative and non-decreasing, provided the successive `time.time()`
readings never decrease. -/
theorem stream_sequence_ids_and_timestamps
    (clock : Nat → ℚ) (s0 : AdapterStreamState) (datas : List (List (String × JVal)))
    (hm : MonoClock clock) (hseq : s0.streamSequenceId = 0)
    (hstart : s0.streamStartTime = none) :
    ((runStream clock s0 datas).1.map (·.sequence_id) = List.range datas.length) ∧
    (∀ t ∈ (runStream clock s0 datas).1.map (·.timestamp), 0 ≤ t) ∧
    List.Chain' (· ≤ ·) ((runStream clock s0 datas).1.map (·.timestamp)) := by
  obtain ⟨sq, st, c⟩ := s0
  simp only at hseq hstart
  subst hseq
  subst hstart
  cases datas with
  | nil => refine ⟨rfl, by simp [runStream], by simp [runStream]⟩
  | cons d rest =>
      rw [runStream]
      simp only [BaseAdapter.to_unified_stream_event, BaseAdapter.toUnifiedStreamEventImpl]
      have hrest := runStream_started clock rest 1 (c + 2) (clock c)
      refine ⟨?_, ?_, ?_⟩
      · rw [List.map_cons, hrest.1, List.length_cons, List.range_eq_range', List.range'_succ]
      · rw [List.map_cons, hrest.2]
        intro t ht
        rcases List.mem_cons.mp ht with h1 | h2
        · subst h1
          show (0 : ℚ) ≤ clock (c + 1) - clock c
          have := hm c (c + 1) (by omega)
          linarith
        · exact clock_diffs_nonneg clock hm (clock c) rest.length (c + 2)
            (hm c (c + 2) (by omega)) t h2
      · rw [List.map_cons, hrest.2]
        cases rest with
        | nil => simp
        | cons d2 rest2 =>
            rw [List.length_cons, List.range'_succ, List.map_cons]
            refine List.Chain'.cons ?_ ?_
            · exact sub_le_sub_right (hm (c + 1) (c + 2) (by omega)) (clock c)
            · have h2 := clock_diffs_chain clock hm (clock c) (rest2.length + 1) (c + 2)
              rw [List.range'_succ, List.map_cons] at h2
              exact h2

/-- C1 (witness): three events on a freshly reset adapter under a
constant clock: sequence ids `[0, 1, 2]`, timestamps non-negative and
non-decreasing. -/
theorem stream_sequence_ids_and_timestamps_witness :
    MonoClock (fun _ => (0 : ℚ)) ∧
    (BaseAdapter.reset_stream_state ⟨7, some 3, 5⟩).streamSequenceId = 0 ∧
    (BaseAdapter.reset_stream_state ⟨7, some 3, 5⟩).streamStartTime = none ∧
    (((runStream (fun _ => (0 : ℚ)) (BaseAdapter.reset_stream_state ⟨7, some 3, 5⟩)
        [[], [], []]).1.map (·.sequence_id) = List.range 3) ∧
      (∀ t ∈ (runStream (fun _ => (0 : ℚ)) (BaseAdapter.reset_stream_state ⟨7, some 3, 5⟩)
        [[], [], []]).1.map (·.timestamp), 0 ≤ t) ∧
      List.Chain' (· ≤ ·) ((runStream (fun _ => (0 : ℚ))
        (BaseAdapter.reset_stream_state ⟨7, some 3, 5⟩) [[], [], []]).1.map (·.timestamp))) :=
  ⟨fun _ _ _ => le_refl 0, rfl, rfl,
   stream_sequence_ids_and_timestamps (fun _ => (0 : ℚ)) (BaseAdapter.reset_stream_state ⟨7, some 3, 5⟩)
     [[], [], []] (fun _ _ _ => le_refl 0) rfl rfl⟩

theorem storeSet_length : ∀ (σ : Store) (r : Nat) (v : List JVal),
    (storeSet σ r v).length = σ.length := by
  intro σ
  induction σ with
  | nil => intro r v; rfl
  | cons x rest ih =>
      intro r v
      cases r with
      | zero => rfl
      | succ n => simp [storeSet, ih]

theorem storeGet_storeSet_self : ∀ (σ : Store) (r : Nat) (v : List JVal),
    r < σ.length → storeGet (storeSet σ r v) r = v := by
  intro σ
  induction σ with
  | nil => intro r v h; simp at h
  | cons x rest ih =>
      intro r v h
      cases r with
      | zero => rfl
      | succ n =>
          rw [show storeSet (x :: rest) (n + 1) v = x :: storeSet rest n v from rfl]
          rw [show storeGet (x :: storeSet rest n v) (n + 1) = storeGet (storeSet rest n v) n from rfl]
          exact ih n v (by simpa using h)

theorem storeGet_storeSet_ne : ∀ (σ : Store) (r r2 : Nat) (v : List JVal),
    r ≠ r2 → storeGet (storeSet σ r v) r2 = storeGet σ r2 := by
  intro σ
  induction σ with
  | nil => intro r r2 v _; rfl
  | cons x rest ih =>
      intro r r2 v h
      cases r with
      | zero =>
          cases r2 with
          | zero => exact absurd rfl h
          | succ m => rfl
      | succ n =>
          cases r2 with
          | zero => rfl
          | succ m =>
              rw [show storeSet (x :: rest) (n + 1) v = x :: storeSet rest n v from rfl]
              rw [show storeGet (x :: storeSet rest n v) (m + 1) = storeGet (storeSet rest n v) m from rfl]
              rw [show storeGet (x :: rest) (m + 1) = storeGet rest m from rfl]
              exact ih n m v (by omega)

theorem storeExtend_length (σ : Store) (r : Nat) (xs : List JVal) :
    (storeExtend σ r xs).length = σ.length := storeSet_length σ r _

theorem storeGet_storeExtend_self (σ : Store) (r : Nat) (xs : List JVal) (h : r < σ.length) :
    storeGet (storeExtend σ r xs) r = storeGet σ r ++ xs :=
  storeGet_storeSet_self σ r _ h

theorem storeGet_storeExtend_ne (σ : Store) (r r2 : Nat) (xs : List JVal) (h : r ≠ r2) :
    storeGet (storeExtend σ r xs) r2 = storeGet σ r2 :=
  storeGet_storeSet_ne σ r r2 _ h

theorem msgsMatch_storeExtend {σ : Store} {gs : List GMsg} {vs : List MsgV}
    (h : msgsMatch σ gs vs) (r : Nat) (xs : List JVal)
    (hne : ∀ g ∈ gs, g.partsRef ≠ r) : msgsMatch (storeExtend σ r xs) gs vs := by
  induction h with
  | nil => exact List.Forall₂.nil
  | cons hgv hrest ih =>
      refine List.Forall₂.cons ⟨hgv.1, hgv.2.1, ?_, ?_⟩ (ih ?_)
      · rw [storeGet_storeExtend_ne σ r _ xs (fun he => hne _ (List.mem_cons_self _ _) he.symm)]
        exact hgv.2.2.1
      · rw [storeExtend_length]
        exact hgv.2.2.2
      · intro g hg
        exact hne g (List.mem_cons_of_mem _ hg)

theorem mergeLoop_spec :
    ∀ (gs : List GMsg) (vs : List MsgV) (σ : Store) (curRole : Option String)
      (curExtra : List (String × JVal)) (curRef : Nat) (merged : List OutMsg),
      msgsMatch σ gs vs →
      curRef < σ.length →
      (curRef :: gs.map (·.partsRef)).Nodup →
      storeGet σ curRef ≠ [] →
      (∀ v ∈ vs, v.parts ≠ []) →
      (∀ o ∈ merged, ∀ r, o.partsRef = some r → r ∉ (curRef :: gs.map (·.partsRef))) →
      ((mergeLoop σ curRole curExtra curRef gs merged).2.map
          (derefOut (mergeLoop σ curRole curExtra curRef gs merged).1) =
        merged.map (derefOut σ) ++ mergeSpecLoop curRole (storeGet σ curRef) curExtra vs) ∧
      (∀ r, r ∉ (curRef :: gs.map (·.partsRef)) →
        storeGet (mergeLoop σ curRole curExtra curRef gs merged).1 r = storeGet σ r) := by
  intro gs
  induction gs with
  | nil =>
      intro vs σ curRole curExtra curRef merged hmatch hlt hnd hcur hvs hmg
      cases hmatch
      constructor
      · rw [mergeLoop]
        rw [mergeSpecLoop]
        rw [List.map_append]
        rw [show mkOut σ curRole curExtra curRef = ⟨curRole, some curRef, curExtra⟩ from by
          rw [mkOut, if_neg (by simpa [List.isEmpty_iff] using hcur)]]
        rfl
      · intro r _
        rfl
  | cons g gt ih =>
      intro vs σ curRole curExtra curRef merged hmatch hlt hnd hcur hvs hmg
      cases hmatch with
      | cons hgv htail =>
          rename_i v vt
          obtain ⟨hrole, hextra, hparts, hbound⟩ := hgv
          rw [mergeLoop]
          by_cases hsame : g.role = curRole
          · -- same role: extend the current run's parts list in place
            rw [if_pos hsame]
            have hcurne : ∀ g2 ∈ g :: gt, g2.partsRef ≠ curRef := by
              intro g2 hg2 he
              have : curRef ∈ (g :: gt).map (·.partsRef) := by
                rw [List.mem_map]
                exact ⟨g2, hg2, he⟩
              exact (List.nodup_cons.mp hnd).1 this
            have hne2 : g.partsRef ≠ curRef := hcurne g (List.mem_cons_self _ _)
            have hmatch2 : msgsMatch (storeExtend σ curRef (storeGet σ g.partsRef)) gt vt :=
              msgsMatch_storeExtend htail curRef _
                (fun g2 hg2 => hcurne g2 (List.mem_cons_of_mem _ hg2))
            have hlt2 : curRef < (storeExtend σ curRef (storeGet σ g.partsRef)).length := by
              rw [storeExtend_length]; exact hlt
            have hnd2 : (curRef :: gt.map (·.partsRef)).Nodup := by
              have hsub : (curRef :: gt.map (·.partsRef)).Sublist
                  (curRef :: (g :: gt).map (·.partsRef)) := by
                rw [List.map_cons]
                exact List.Sublist.cons₂ curRef (List.sublist_cons_self _ _)
              exact hnd.sublist hsub
            have hget2 : storeGet (storeExtend σ curRef (storeGet σ g.partsRef)) curRef =
                storeGet σ curRef ++ v.parts := by
              rw [storeGet_storeExtend_self σ curRef _ hlt, hparts]
            have hcur2 : storeGet (storeExtend σ curRef (storeGet σ g.partsRef)) curRef ≠ [] := by
              rw [hget2]
              intro he
              exact hcur (List.append_eq_nil.mp he).1
            have hmg2 : ∀ o ∈ merged, ∀ r, o.partsRef = some r →
                r ∉ (curRef :: gt.map (·.partsRef)) := by
              intro o ho r hr hmem
              refine hmg o ho r hr ?_
              rcases List.mem_cons.mp hmem with h1 | h2
              · exact h1 ▸ List.mem_cons_self _ _
              · rw [List.map_cons]
                exact List.mem_cons_of_mem _ (List.mem_cons_of_mem _ h2)
            have hIH := ih vt (storeExtend σ curRef (storeGet σ g.partsRef)) curRole curExtra
              curRef merged hmatch2 hlt2 hnd2 hcur2 (fun v2 hv2 => hvs v2 (List.mem_cons_of_mem _ hv2)) hmg2
            constructor
            · rw [hIH.1, hget2]
              rw [mergeSpecLoop, if_pos (hrole ▸ hsame)]
              congr 1
              apply List.map_congr_left
              intro o ho
              rw [derefOut, derefOut]
              congr 1
              cases hor : o.partsRef with
              | none => rfl
              | some r =>
                  rw [Option.map_some', Option.map_some',
                    storeGet_storeExtend_ne σ curRef r _
                      (fun he => hmg o ho r hor (he ▸ List.mem_cons_self _ _))]
            · intro r hr
              rw [hIH.2 r (fun hmem => hr (by
                rcases List.mem_cons.mp hmem with h1 | h2
                · exact h1 ▸ List.mem_cons_self _ _
                · rw [List.map_cons]
                  exact List.mem_cons_of_mem _ (List.mem_cons_of_mem _ h2)))]
              rw [storeGet_storeExtend_ne σ curRef r _
                (fun he => hr (he ▸ List.mem_cons_self _ _))]
          · -- role change: save current, restart from this message
            rw [if_neg hsame]
            have hndtail : (g.partsRef :: gt.map (·.partsRef)).Nodup := by
              have := (List.nodup_cons.mp hnd).2
              rwa [List.map_cons] at this
            have hcurnot : curRef ∉ g.partsRef :: gt.map (·.partsRef) := by
              have := (List.nodup_cons.mp hnd).1
              rwa [List.map_cons] at this
            have hmkout : mkOut σ curRole curExtra curRef = ⟨curRole, some curRef, curExtra⟩ := by
              rw [mkOut, if_neg (by simpa [List.isEmpty_iff] using hcur)]
            have hmg2 : ∀ o ∈ merged ++ [mkOut σ curRole curExtra curRef], ∀ r,
                o.partsRef = some r → r ∉ (g.partsRef :: gt.map (·.partsRef)) := by
              intro o ho r hr hmem
              rcases List.mem_append.mp ho with h1 | h2
              · refine hmg o h1 r hr ?_
                rw [List.map_cons]
                exact List.mem_cons_of_mem _ hmem
              · rw [List.mem_singleton] at h2
                subst h2
                rw [hmkout] at hr
                simp only at hr
                cases hr
                exact hcurnot hmem
            have hgne : storeGet σ g.partsRef ≠ [] := by
              rw [hparts]
              exact hvs v (List.mem_cons_self _ _)
            have hIH := ih vt σ g.role g.extra g.partsRef
              (merged ++ [mkOut σ curRole curExtra curRef]) htail hbound hndtail hgne
              (fun v2 hv2 => hvs v2 (List.mem_cons_of_mem _ hv2)) hmg2
            constructor
            · rw [hIH.1, hmkout]
              rw [mergeSpecLoop, if_neg (fun he => hsame (hrole ▸ he))]
              rw [List.map_append]
              rw [List.append_assoc]
              congr 1
              rw [hparts, hrole, hextra]
              rfl
            · intro r hr
              refine (hIH.2 r (fun hmem => hr ?_)).trans rfl
              rw [List.map_cons]
              rcases List.mem_cons.mp hmem with h1 | h2
              · exact h1 ▸ List.mem_cons_of_mem _ (List.mem_cons_self _ _)
              · exact List.mem_cons_of_mem _ (List.mem_cons_of_mem _ h2)

theorem initStore_length (vs : List MsgV) : (initStore vs).length = vs.length :=
  List.length_map _ _

theorem storeGet_initStore_getD : ∀ (vs : List MsgV) (k : Nat), k < vs.length →
    storeGet (initStore vs) k = (vs.getD k ⟨none, [], []⟩).parts := by
  intro vs
  induction vs with
  | nil => intro k h; simp at h
  | cons v vt ih =>
      intro k h
      cases k with
      | zero => rfl
      | succ m =>
          rw [List.getD_cons_succ]
          exact ih m (by simpa using h)

theorem initMsgs_map_partsRef : ∀ (vs : List MsgV) (i : Nat),
    (initMsgs vs i).map (·.partsRef) = List.range' i vs.length := by
  intro vs
  induction vs with
  | nil => intro i; rfl
  | cons v vt ih =>
      intro i
      rw [show initMsgs (v :: vt) i = ⟨v.role, i, v.extra⟩ :: initMsgs vt (i + 1) from rfl]
      rw [List.map_cons, List.length_cons, List.range'_succ, ih (i + 1)]

theorem initMsgs_map_role : ∀ (vs : List MsgV) (i : Nat),
    (initMsgs vs i).map (·.role) = vs.map (·.role) := by
  intro vs
  induction vs with
  | nil => intro i; rfl
  | cons v vt ih =>
      intro i
      rw [show initMsgs (v :: vt) i = ⟨v.role, i, v.extra⟩ :: initMsgs vt (i + 1) from rfl]
      rw [List.map_cons, List.map_cons, ih (i + 1)]

theorem msgsMatch_initMsgs : ∀ (vt : List MsgV) (σ : Store) (i : Nat),
    (∀ k, k < vt.length → storeGet σ (i + k) = (vt.getD k ⟨none, [], []⟩).parts) →
    i + vt.length ≤ σ.length →
    msgsMatch σ (initMsgs vt i) vt := by
  intro vt
  induction vt with
  | nil => intro σ i _ _; exact List.Forall₂.nil
  | cons v rest ih =>
      intro σ i hget hlen
      refine List.Forall₂.cons ⟨rfl, rfl, ?_, ?_⟩ (ih σ (i + 1) ?_ ?_)
      · have := hget 0 (by simp)
        rwa [Nat.add_zero, List.getD_cons_zero] at this
      · show i < σ.length
        simp only [List.length_cons] at hlen
        omega
      · intro k hk
        have := hget (k + 1) (by simpa using Nat.succ_lt_succ hk)
        rwa [List.getD_cons_succ, show i + (k + 1) = i + 1 + k by omega] at this
      · simp only [List.length_cons] at hlen
        omega

theorem mergeSpecLoop_head_role : ∀ (vs : List MsgV) (cr : Option String) (p : List JVal)
    (e : List (String × JVal)),
    ((mergeSpecLoop cr p e vs).head?).map (·.role) = some cr := by
  intro vs
  induction vs with
  | nil => intro cr p e; rfl
  | cons m ms ih =>
      intro cr p e
      rw [mergeSpecLoop]
      by_cases h : m.role = cr
      · rw [if_pos h]; exact ih cr (p ++ m.parts) e
      · rw [if_neg h]; rfl

theorem mergeSpecLoop_chain : ∀ (vs : List MsgV) (cr : Option String) (p : List JVal)
    (e : List (String × JVal)),
    List.Chain' (fun a b => a.role ≠ b.role) (mergeSpecLoop cr p e vs) := by
  intro vs
  induction vs with
  | nil => intro cr p e; exact List.chain'_singleton _
  | cons m ms ih =>
      intro cr p e
      rw [mergeSpecLoop]
      by_cases h : m.role = cr
      · rw [if_pos h]; exact ih cr (p ++ m.parts) e
      · rw [if_neg h]
        refine List.chain'_cons'.mpr ⟨?_, ih m.role m.parts m.extra⟩
        intro y hy
        have hh := mergeSpecLoop_head_role ms m.role m.parts m.extra
        rw [hy] at hh
        rw [Option.map_some'] at hh
        have : y.role = m.role := Option.some.inj hh
        rw [show (⟨cr, some p, e⟩ : OutMsgV).role = cr from rfl, this]
        exact fun he => h he.symm

/-- C7 (amended): for every non-empty message list in which each message
has a non-empty list-valued `parts`, `merge_duplicate_messages` returns
the reference merge — one output message per maximal run of consecutive
same-role inputs, carrying the run's parts concatenated in input order
and the other fields of the run's first message — and no two consecutive
output messages share a role. -/
theorem merge_duplicate_messages_spec (vs : List MsgV) (hne : vs ≠ [])
    (hp : ∀ v ∈ vs, v.parts ≠ []) :
    merge_duplicate_messagesV vs = mergeSpec vs ∧
    List.Chain' (fun a b => a.role ≠ b.role) (merge_duplicate_messagesV vs) := by
  cases vs with
  | nil => exact absurd rfl hne
  | cons v vt =>
      have hmatch : msgsMatch (initStore (v :: vt)) (initMsgs vt 1) vt := by
        refine msgsMatch_initMsgs vt (initStore (v :: vt)) 1 ?_ ?_
        · intro k hk
          rw [show (1 : Nat) + k = k + 1 by omega]
          rw [storeGet_initStore_getD (v :: vt) (k + 1) (by simpa using Nat.succ_lt_succ hk)]
          rw [List.getD_cons_succ]
        · rw [initStore_length, List.length_cons]
          omega
      have hnodup : ((0 : Nat) :: (initMsgs vt 1).map (·.partsRef)).Nodup := by
        rw [initMsgs_map_partsRef]
        refine List.nodup_cons.mpr ⟨?_, List.nodup_range' 1 vt.length⟩
        intro hmem
        rw [List.mem_range'_1] at hmem
        omega
      have hcur : storeGet (initStore (v :: vt)) 0 ≠ [] := by
        rw [show storeGet (initStore (v :: vt)) 0 = v.parts from rfl]
        exact hp v (List.mem_cons_self _ _)
      have hspec := mergeLoop_spec (initMsgs vt 1) vt (initStore (v :: vt)) v.role v.extra 0 []
        hmatch (by rw [initStore_length]; simp) hnodup hcur
        (fun v2 hv2 => hp v2 (List.mem_cons_of_mem _ hv2))
        (by intro o ho; simp at ho)
      have heq : merge_duplicate_messagesV (v :: vt) =
          mergeSpecLoop v.role v.parts v.extra vt := by
        rw [show merge_duplicate_messagesV (v :: vt) =
          (mergeLoop (initStore (v :: vt)) v.role v.extra 0 (initMsgs vt 1) []).2.map
            (derefOut (mergeLoop (initStore (v :: vt)) v.role v.extra 0 (initMsgs vt 1) []).1)
          from rfl]
        rw [hspec.1]
        rw [show storeGet (initStore (v :: vt)) 0 = v.parts from rfl]
        rfl
      refine ⟨heq.trans rfl, ?_⟩
      rw [heq]
      exact mergeSpecLoop_chain vt v.role v.parts v.extra

/-- C7 (witness): two consecutive user messages followed by a model
message merge into two output messages with concatenated parts. -/
theorem merge_duplicate_messages_spec_witness :
    ([⟨some "user", [.str "a"], []⟩, ⟨some "user", [.str "b"], []⟩,
      ⟨some "model", [.str "c"], []⟩] : List MsgV) ≠ [] ∧
    (∀ v ∈ ([⟨some "user", [.str "a"], []⟩, ⟨some "user", [.str "b"], []⟩,
      ⟨some "model", [.str "c"], []⟩] : List MsgV), v.parts ≠ []) ∧
    (merge_duplicate_messagesV [⟨some "user", [.str "a"], []⟩, ⟨some "user", [.str "b"], []⟩,
        ⟨some "model", [.str "c"], []⟩] =
      mergeSpec [⟨some "user", [.str "a"], []⟩, ⟨some "user", [.str "b"], []⟩,
        ⟨some "model", [.str "c"], []⟩] ∧
      List.Chain' (fun a b => a.role ≠ b.role)
        (merge_duplicate_messagesV [⟨some "user", [.str "a"], []⟩, ⟨some "user", [.str "b"], []⟩,
          ⟨some "model", [.str "c"], []⟩])) :=
  ⟨by simp,
   by
     intro v hv
     simp only [List.mem_cons, List.not_mem_nil, or_false] at hv
     rcases hv with rfl | rfl | rfl <;> simp,
   merge_duplicate_messages_spec _ (by simp)
     (by
       intro v hv
       simp only [List.mem_cons, List.not_mem_nil, or_false] at hv
       rcases hv with rfl | rfl | rfl <;> simp)⟩

/-- C7 (counterexample): on a single message whose `parts` is the empty
list, the code drops the `parts` key from the output message (the
`if current_parts` truthiness check fails), so the output differs from
the reference merge, which carries the empty concatenation. -/
theorem merge_duplicate_messages_drops_empty_parts :
    merge_duplicate_messagesV [⟨some "user", [], []⟩] ≠ mergeSpec [⟨some "user", [], []⟩] := by
  intro h
  have h2 : (false : Bool) = true := by
    calc false
        = ((merge_duplicate_messagesV [⟨some "user", [], []⟩]).headD
            ⟨none, none, []⟩).parts.isSome := rfl
      _ = ((mergeSpec [⟨some "user", [], []⟩]).headD ⟨none, none, []⟩).parts.isSome := by rw [h]
      _ = true := rfl
  exact Bool.noConfusion h2

theorem mergeLoop_no_mutation : ∀ (gs : List GMsg) (σ : Store) (curRole : Option String)
    (curExtra : List (String × JVal)) (curRef : Nat) (merged : List OutMsg),
    List.Chain' (· ≠ ·) (curRole :: gs.map (·.role)) →
    (mergeLoop σ curRole curExtra curRef gs merged).1 = σ := by
  intro gs
  induction gs with
  | nil => intro σ curRole curExtra curRef merged _; rfl
  | cons g gt ih =>
      intro σ curRole curExtra curRef merged h
      rw [List.map_cons, List.chain'_cons] at h
      rw [mergeLoop, if_neg (fun he => h.1 he.symm)]
      exact ih σ g.role g.extra g.partsRef _ h.2

/-- C8 (amended): the conversion helpers can mutate their inputs —
`merge_duplicate_messages` extends the first message of a same-role run's
parts list in place (second conjunct), and `validate_empty_properties`
installs the default `{"type": "object"}` items schema into an array
schema lacking one (third conjunct) — but `merge_duplicate_messages`
leaves its input parts lists structurally unchanged whenever no two
consecutive messages share a role (first conjunct). -/
theorem adapter_helpers_mutation_scope :
    (∀ vs : List MsgV, List.Chain' (fun a b => a.role ≠ b.role) vs →
      mergeFinalStore vs = initStore vs) ∧
    mergeFinalStore [⟨some "user", [.int 1], []⟩, ⟨some "user", [.int 2], []⟩] =
      [[.int 1, .int 2], [.int 2]] ∧
    validate_empty_properties (.dict [("type", .str "array")]) =
      (.ok (), .dict [("type", .str "array"), ("items", .dict [("type", .str "object")])]) := by
  refine ⟨?_, rfl, ?_⟩
  · intro vs h
    cases vs with
    | nil => rfl
    | cons v vt =>
        rw [show mergeFinalStore (v :: vt) =
          (mergeLoop (initStore (v :: vt)) v.role v.extra 0 (initMsgs vt 1) []).1 from rfl]
        refine mergeLoop_no_mutation (initMsgs vt 1) _ v.role v.extra 0 [] ?_
        rw [initMsgs_map_role]
        rw [show (v.role :: vt.map (·.role)) = (v :: vt).map (·.role) from rfl]
        exact (List.chain'_map (fun m : MsgV => m.role)).mpr h
  · simp [validate_empty_properties, jlook, jset, defaultItemsSchema]

/-- C8 (witness): messages with alternating roles are left unchanged. -/
theorem adapter_helpers_mutation_scope_witness :
    List.Chain' (fun a b => a.role ≠ b.role)
      ([⟨some "user", [.int 1], []⟩, ⟨some "model", [.int 2], []⟩] : List MsgV) ∧
    mergeFinalStore [⟨some "user", [.int 1], []⟩, ⟨some "model", [.int 2], []⟩] =
      initStore [⟨some "user", [.int 1], []⟩, ⟨some "model", [.int 2], []⟩] :=
  ⟨List.chain'_cons.mpr ⟨by simp, List.chain'_singleton _⟩,
   adapter_helpers_mutation_scope.1
     [⟨some "user", [.int 1], []⟩, ⟨some "model", [.int 2], []⟩]
     (List.chain'_cons.mpr ⟨by simp, List.chain'_singleton _⟩)⟩

/-- C8 (counterexample): both helpers mutate their input on concrete
calls — merging two same-role messages extends the first message's parts
list object in place, and validating an array schema without items
writes a default items schema into it — refuting the claim that the
argument is structurally identical after the call. -/
theorem adapter_helpers_do_mutate :
    mergeFinalStore [⟨some "user", [.int 1], []⟩, ⟨some "user", [.int 2], []⟩] ≠
      initStore [⟨some "user", [.int 1], []⟩, ⟨some "user", [.int 2], []⟩] ∧
    (validate_empty_properties (.dict [("type", .str "array")])).2 ≠
      .dict [("type", .str "array")] := by
  constructor
  · intro h
    have h2 : (2 : Nat) = 1 := by
      calc (2 : Nat)
          = (storeGet (mergeFinalStore
              [⟨some "user", [.int 1], []⟩, ⟨some "user", [.int 2], []⟩]) 0).length := rfl
        _ = (storeGet (initStore
              [⟨some "user", [.int 1], []⟩, ⟨some "user", [.int 2], []⟩]) 0).length := by rw [h]
        _ = 1 := rfl
    exact absurd h2 (by decide)
  · intro h
    have he : validate_empty_properties (.dict [("type", .str "array")]) =
        (.ok (), .dict [("type", .str "array"), ("items", .dict [("type", .str "object")])]) := by
      simp [validate_empty_properties, jlook, jset, defaultItemsSchema]
    rw [he] at h
    simp at h
